import Mathlib

/-!
Shallow embedding of `rayane_course_project.py`, a personal/group finance
tracker.  Python dictionaries with string keys are modelled as association
lists in insertion order (Python dicts preserve insertion order, and updates
keep the key's position).  Numeric amounts are modelled as integers: the code
only ever adds them.  Python object identity for `Expense` (the class defines
no `__eq__`, so `==`, `in` and `list.remove` compare by identity) is modelled
by an `oid` field, allocated from a counter `nextOid` held in the tracker
state, so that a freshly constructed expense never compares equal to a stored
one.  The `print` calls are modelled as structured `Report` values carrying
the same data as the printed messages; the file system touched by
`save_expense_history` is an explicit map from filename to content.
-/

set_option autoImplicit false

/-- Python `str.lower()`: lower-case each character (ASCII casing via
`Char.toLower`), defined structurally so concrete states evaluate. -/
def pyLower (s : String) : String :=
  ⟨s.data.map Char.toLower⟩

/-- `Expense.__init__` stores amount, category and date; `oid` models Python
object identity (see the header comment). -/
structure Expense where
  oid : Nat
  amount : Int
  category : String
  date : String
deriving DecidableEq

/-- `Expense.__str__`: `f"{self._date}: ${self._amount} - {self._category}"`. -/
def Expense.str (e : Expense) : String :=
  e.date ++ ": $" ++ toString e.amount ++ " - " ++ e.category

/-- Python `==` on `Expense`: the class defines no `__eq__`, so equality is
object identity, modelled by `oid` equality. -/
def pyExpenseEq (a b : Expense) : Bool :=
  a.oid == b.oid

/-- The per-user record `{'name': ..., 'account_number': ..., 'balance': 0,
'expenses': []}` stored in `FinanceTracker._users`. -/
structure User where
  name : String
  account_number : String
  balance : Int
  expenses : List Expense
deriving DecidableEq

/-- The `FinanceTracker._deposit_limits` dictionary.  Its keys are exactly
`daily`, `weekly`, `monthly`: they are fixed in `__new__` and
`set_deposit_limit` only ever assigns to an existing key. -/
structure DepositLimits where
  daily : Option Int
  weekly : Option Int
  monthly : Option Int
deriving DecidableEq

/-- The mutable attributes of the `FinanceTracker` singleton instance, plus
the `nextOid` allocation counter modelling Python object identity. -/
structure TrackerState where
  users : List (String × User)
  group_deposits : List (Int × List String)
  deposit_limits : DepositLimits
  nextOid : Nat
deriving DecidableEq

/-- Dictionary lookup `self._users[uid]` / `uid in self._users` (first — and
for reachable states only — entry with the key). -/
def lookupUser : List (String × User) → String → Option User
  | [], _ => none
  | p :: rest, uid => if p.1 = uid then some p.2 else lookupUser rest uid

/-- `self._users[uid]['balance'] += amt` (a no-op on an absent key; the code
only runs it on keys it has just checked). -/
def updateBalance (us : List (String × User)) (uid : String) (amt : Int) :
    List (String × User) :=
  us.map (fun p => if p.1 = uid then (p.1, { p.2 with balance := p.2.balance + amt }) else p)

/-- The success loop of `add_group_deposit`:
`for uid in user_ids: self._users[uid]['balance'] += deposit_amount`. -/
def depositAll (us : List (String × User)) (ids : List String) (amt : Int) :
    List (String × User) :=
  ids.foldl (fun acc uid => updateBalance acc uid amt) us

/-- `self._users[uid]['expenses']` updated in place by `f`. -/
def updateExpenses (us : List (String × User)) (uid : String)
    (f : List Expense → List Expense) : List (String × User) :=
  us.map (fun p => if p.1 = uid then (p.1, { p.2 with expenses := f p.2.expenses }) else p)

/-- `list.remove(e)` on an expense list: drop the first element `==` to `e`
(identity comparison, see `pyExpenseEq`). -/
def removeFirstExpense : List Expense → Expense → List Expense
  | [], _ => []
  | x :: xs, e => if pyExpenseEq x e then xs else x :: removeFirstExpense xs e

/-- The structured content of every `print` the tracker emits. -/
inductive Report where
  | userExists (uid : String)
  | userAdded (uid name : String) (currentUsers : List String)
  | groupDepositOk (amount : Int) (uids : List String)
  | depositFailed (missing : List String)
  | userNotFound (uid : String)
  | expenseNotFound (uid : String)
  | expenseHistoryHeader (name : String)
  | expenseLine (line : String)
deriving DecidableEq

/-- The keys of the user registry, in insertion order. -/
def userIds (s : TrackerState) : List String :=
  s.users.map Prod.fst

/-- The balance `self._users[uid]['balance']`, when the user exists. -/
def balanceOf (s : TrackerState) (uid : String) : Option Int :=
  (lookupUser s.users uid).map User.balance

/-- The state set up by `FinanceTracker.__new__` on first construction. -/
def initState : TrackerState :=
  { users := [], group_deposits := [],
    deposit_limits := { daily := none, weekly := none, monthly := none },
    nextOid := 0 }

/-- `FinanceTracker.__new__`: given the class attribute `_instance`
(`none` when no instance exists yet), return the instance handed back to the
caller together with the updated class attribute. -/
def financeTrackerNew : Option TrackerState → TrackerState × Option TrackerState
  | none => (initState, some initState)
  | some s => (s, some s)

/-- `FinanceTracker.add_user`. -/
def add_user (s : TrackerState) (user_id name account_number : String) :
    TrackerState × List Report :=
  let uid := pyLower user_id
  match lookupUser s.users uid with
  | some _ => (s, [Report.userExists uid])
  | none =>
      let s' := { s with users :=
        s.users ++ [(uid, { name := name, account_number := account_number,
                            balance := 0, expenses := [] })] }
      (s', [Report.userAdded uid name (userIds s')])

/-- `FinanceTracker.add_group_deposit`.  The Python `valid_users` is a dict
comprehension, so duplicate ids collapse to one key: its length is the number
of distinct registered ids among `user_ids`, modelled by `dedup` of the
filtered list.  `missing = set(user_ids) - set(valid_users.keys())` is the
set of normalized ids that are not registered. -/
def add_group_deposit (s : TrackerState) (deposit_amount : Int)
    (user_ids : List String) : TrackerState × List Report :=
  let ids := user_ids.map pyLower
  let validKeys := (ids.filter (fun uid => (lookupUser s.users uid).isSome)).dedup
  if validKeys.length = ids.length then
    ({ s with users := depositAll s.users ids deposit_amount,
              group_deposits := s.group_deposits ++ [(deposit_amount, ids)] },
     [Report.groupDepositOk deposit_amount ids])
  else
    (s, [Report.depositFailed ((ids.filter (fun uid => (lookupUser s.users uid).isNone)).dedup)])

/-- Date resolution `date if date else datetime.now().strftime(...)` in
`Expense.__init__` (the empty string is falsy in Python); `today` is the
clock passed in explicitly. -/
def resolveDate (date : Option String) (today : String) : String :=
  match date with
  | some d => if d = "" then today else d
  | none => today

/-- `ExpenseFactory.create_expense` / `Expense.__init__`; `oid` is the
identity of the freshly allocated object. -/
def create_expense (amount : Int) (category : String) (date : Option String)
    (today : String) (oid : Nat) : Expense :=
  { oid := oid, amount := amount, category := category, date := resolveDate date today }

/-- `FinanceTracker.add_expense`. -/
def add_expense (s : TrackerState) (user_id : String) (amount : Int)
    (category : String) (date : Option String) (today : String) :
    TrackerState × List Report :=
  let uid := pyLower user_id
  match lookupUser s.users uid with
  | some _ =>
      let e := create_expense amount category date today s.nextOid
      ({ s with users := updateExpenses s.users uid (fun es => es ++ [e]),
                nextOid := s.nextOid + 1 }, [])
  | none => (s, [Report.userNotFound uid])

/-- `FinanceTracker.remove_expense`. -/
def remove_expense (s : TrackerState) (user_id : String) (e : Expense) :
    TrackerState × List Report :=
  let uid := pyLower user_id
  match lookupUser s.users uid with
  | some u =>
      if u.expenses.any (fun x => pyExpenseEq x e) then
        ({ s with users := updateExpenses s.users uid (fun es => removeFirstExpense es e) }, [])
      else
        (s, [Report.expenseNotFound uid])
  | none => (s, [Report.userNotFound uid])

/-- `FinanceTracker.print_expense_history` (pure: returns what it prints). -/
def print_expense_history (s : TrackerState) (user_id : String) : List Report :=
  let uid := pyLower user_id
  match lookupUser s.users uid with
  | some u =>
      Report.expenseHistoryHeader u.name :: u.expenses.map (fun e => Report.expenseLine e.str)
  | none => [Report.userNotFound uid]

/-- The file system: filename to content, written by `save_expense_history`. -/
abbrev FS : Type := List (String × String)

/-- `open(filename, 'w')` followed by writing `content`: any prior content at
`filename` is discarded. -/
def setFile (fs : FS) (fn content : String) : FS :=
  fs.filter (fun p => p.1 ≠ fn) ++ [(fn, content)]

/-- Read back a file's content. -/
def getFile : FS → String → Option String
  | [], _ => none
  | p :: rest, fn => if p.1 = fn then some p.2 else getFile rest fn

/-- `FinanceTracker.save_expense_history`: one line `str(expense) + "\n"` per
expense, written over whatever the destination held before. -/
def save_expense_history (s : TrackerState) (user_id : String) (filename : String)
    (fs : FS) : FS × List Report :=
  let uid := pyLower user_id
  match lookupUser s.users uid with
  | some u =>
      (setFile fs filename (String.join (u.expenses.map (fun e => e.str ++ "\n"))), [])
  | none => (fs, [Report.userNotFound uid])

/-- `FinanceTracker.set_deposit_limit`: `if period in self._deposit_limits:
self._deposit_limits[period] = limit` over the fixed key set. -/
def set_deposit_limit (s : TrackerState) (period : String) (limit : Int) :
    TrackerState :=
  if period = "daily" then
    { s with deposit_limits := { s.deposit_limits with daily := some limit } }
  else if period = "weekly" then
    { s with deposit_limits := { s.deposit_limits with weekly := some limit } }
  else if period = "monthly" then
    { s with deposit_limits := { s.deposit_limits with monthly := some limit } }
  else s

/-- A sequence of `add_user` calls: each entry is (id, name, account number). -/
def addUsersSeq (s : TrackerState) (entries : List (String × String × String)) :
    TrackerState :=
  entries.foldl (fun st e => (add_user st e.1 e.2.1 e.2.2).1) s

/-- A sample state: the tracker right after `add_user("a", "Alice", "123")`. -/
def sampleTracker : TrackerState :=
  (add_user initState "a" "Alice" "123").1

/-- `sampleTracker` after `add_expense("a", 50, "Food", "2024-04-20")`. -/
def sampleTrackerExp : TrackerState :=
  (add_expense sampleTracker "a" 50 "Food" (some "2024-04-20") "2024-05-01").1

/-- `sampleTracker` after also registering `add_user("b", "Bob", "456")`. -/
def sampleTracker2 : TrackerState :=
  (add_user sampleTracker "b" "Bob" "456").1

theorem lookupUser_updateBalance (us : List (String × User)) (uid v : String) (amt : Int) :
    lookupUser (updateBalance us uid amt) v =
      if v = uid then (lookupUser us v).map (fun u => { u with balance := u.balance + amt })
      else lookupUser us v := by
  induction us with
  | nil => simp [updateBalance, lookupUser]
  | cons p rest ih =>
    have hcons : updateBalance (p :: rest) uid amt
        = (if p.1 = uid then (p.1, { p.2 with balance := p.2.balance + amt }) else p)
            :: updateBalance rest uid amt := rfl
    rw [hcons]
    by_cases hp : p.1 = uid
    · rw [if_pos hp]
      by_cases hv : v = uid
      · have hpv : p.1 = v := by rw [hp, hv]
        simp only [lookupUser, if_pos hpv, if_pos hv]
        rfl
      · have hpv : ¬ p.1 = v := fun h => hv (by rw [← h, hp])
        simp only [lookupUser, if_neg hpv, if_neg hv]
        rw [ih, if_neg hv]
    · rw [if_neg hp]
      by_cases hpv : p.1 = v
      · have hv : ¬ v = uid := fun h => hp (by rw [hpv, h])
        simp only [lookupUser, if_pos hpv, if_neg hv]
      · simp only [lookupUser, if_neg hpv]
        exact ih

theorem lookupUser_depositAll (ids : List String) (us : List (String × User)) (amt : Int)
    (hnd : ids.Nodup) (v : String) :
    lookupUser (depositAll us ids amt) v =
      if v ∈ ids then (lookupUser us v).map (fun u => { u with balance := u.balance + amt })
      else lookupUser us v := by
  induction ids generalizing us with
  | nil => simp [depositAll]
  | cons x xs ih =>
    obtain ⟨hx, hxs⟩ := List.nodup_cons.mp hnd
    have step : depositAll us (x :: xs) amt = depositAll (updateBalance us x amt) xs amt := rfl
    rw [step, ih (updateBalance us x amt) hxs, lookupUser_updateBalance]
    by_cases hvx : v = x
    · subst hvx
      simp [hx, List.mem_cons]
    · by_cases hvxs : v ∈ xs
      · simp [hvxs, hvx, List.mem_cons]
      · simp [hvxs, hvx, List.mem_cons]

theorem groupDeposit_success_cond (us : List (String × User)) (ids : List String)
    (h : ((ids.filter (fun uid => (lookupUser us uid).isSome)).dedup).length = ids.length) :
    ids.Nodup ∧ ∀ uid ∈ ids, (lookupUser us uid).isSome := by
  have h1 : List.Sublist (ids.filter (fun uid => (lookupUser us uid).isSome)).dedup
      (ids.filter (fun uid => (lookupUser us uid).isSome)) := List.dedup_sublist _
  have h2 : List.Sublist (ids.filter (fun uid => (lookupUser us uid).isSome)) ids :=
    List.filter_sublist ids
  have h3 : List.Sublist (ids.filter (fun uid => (lookupUser us uid).isSome)).dedup ids :=
    List.Sublist.trans h1 h2
  have h4 : (ids.filter (fun uid => (lookupUser us uid).isSome)).dedup = ids :=
    h3.eq_of_length h
  have hge : ids.length ≤ (ids.filter (fun uid => (lookupUser us uid).isSome)).length := by
    calc ids.length = (ids.filter (fun uid => (lookupUser us uid).isSome)).dedup.length := h.symm
    _ ≤ (ids.filter (fun uid => (lookupUser us uid).isSome)).length := h1.length_le
  have h6 : ids.filter (fun uid => (lookupUser us uid).isSome) = ids :=
    h2.eq_of_length (le_antisymm h2.length_le hge)
  refine ⟨?_, List.filter_eq_self.mp h6⟩
  rw [h6] at h4
  exact List.dedup_eq_self.mp h4

theorem remove_expense_no_match (s : TrackerState) (user_id : String) (u : User) (e : Expense)
    (hu : lookupUser s.users (pyLower user_id) = some u)
    (he : u.expenses.any (fun x => pyExpenseEq x e) = false) :
    remove_expense s user_id e = (s, [Report.expenseNotFound (pyLower user_id)]) := by
  simp only [remove_expense]
  rw [hu]
  simp [he]

theorem getFile_append_of_ne (l : FS) (fn c : String) (h : ∀ p ∈ l, p.1 ≠ fn) :
    getFile (l ++ [(fn, c)]) fn = some c := by
  induction l with
  | nil => simp [getFile]
  | cons p rest ih =>
    have hp : p.1 ≠ fn := h p (by simp)
    have : getFile ((p :: rest) ++ [(fn, c)]) fn
        = if p.1 = fn then some p.2 else getFile (rest ++ [(fn, c)]) fn := rfl
    rw [this, if_neg hp]
    exact ih (fun q hq => h q (by simp [hq]))

theorem getFile_setFile (fs : FS) (fn c : String) :
    getFile (setFile fs fn c) fn = some c := by
  apply getFile_append_of_ne
  intro p hp
  have := (List.mem_filter.mp hp).2
  simpa using this

/-- C4: for a registered user, a subsequent `add_user` call with any casing of
the same normalized id leaves the stored record (name, account number,
balance, expenses) and every other registry entry unchanged — the whole state
is untouched — and reports the duplicate. -/
theorem add_user_duplicate_noop (s : TrackerState) (user_id name account_number : String)
    (u : User) (h : lookupUser s.users (pyLower user_id) = some u) :
    (add_user s user_id name account_number).1 = s ∧
    (add_user s user_id name account_number).2 = [Report.userExists (pyLower user_id)] := by
  simp only [add_user]
  rw [h]
  exact ⟨rfl, rfl⟩

/-- Witness for C4: re-adding "A" (a different casing of the registered "a")
with a different name and account number changes nothing. -/
theorem add_user_duplicate_noop_witness :
    lookupUser sampleTracker.users (pyLower "A")
      = some { name := "Alice", account_number := "123", balance := 0, expenses := [] } ∧
    (add_user sampleTracker "A" "Bob" "999").1 = sampleTracker :=
  ⟨by decide, (add_user_duplicate_noop sampleTracker "A" "Bob" "999"
    { name := "Alice", account_number := "123", balance := 0, expenses := [] } (by decide)).1⟩

/-- C5: every operation referencing an unregistered user id — `add_expense`,
`remove_expense`, `print_expense_history`, `save_expense_history` — leaves
the tracker state (and, for save, the file system) unchanged, reports
not-found, and returns normally. -/
theorem unknown_user_ops_noop (s : TrackerState) (user_id : String)
    (h : lookupUser s.users (pyLower user_id) = none)
    (amount : Int) (category : String) (date : Option String) (today : String)
    (e : Expense) (filename : String) (fs : FS) :
    add_expense s user_id amount category date today
      = (s, [Report.userNotFound (pyLower user_id)]) ∧
    remove_expense s user_id e = (s, [Report.userNotFound (pyLower user_id)]) ∧
    print_expense_history s user_id = [Report.userNotFound (pyLower user_id)] ∧
    save_expense_history s user_id filename fs
      = (fs, [Report.userNotFound (pyLower user_id)]) := by
  refine ⟨?_, ?_, ?_, ?_⟩
  · simp only [add_expense]
    rw [h]
  · simp only [remove_expense]
    rw [h]
  · simp only [print_expense_history]
    rw [h]
  · simp only [save_expense_history]
    rw [h]

/-- Witness for C5: the id "zz" is not registered in the sample tracker and
all four operations leave everything unchanged. -/
theorem unknown_user_ops_noop_witness :
    lookupUser sampleTracker.users (pyLower "zz") = none ∧
    add_expense sampleTracker "zz" 5 "Food" none "2024-05-01"
      = (sampleTracker, [Report.userNotFound (pyLower "zz")]) ∧
    save_expense_history sampleTracker "zz" "f.txt" []
      = ([], [Report.userNotFound (pyLower "zz")]) := by
  have h := unknown_user_ops_noop sampleTracker "zz" (by decide) 5 "Food" none "2024-05-01"
    { oid := 0, amount := 0, category := "", date := "" } "f.txt" []
  exact ⟨by decide, h.1, h.2.2.2⟩

/-- C6: for a registered user, removing an expense that is not in the user's
expense list (no stored expense compares equal to it) leaves the state
unchanged and reports expense-not-found instead of raising a fault. -/
theorem remove_expense_absent_noop (s : TrackerState) (user_id : String) (u : User)
    (e : Expense) (hu : lookupUser s.users (pyLower user_id) = some u)
    (he : ∀ x ∈ u.expenses, pyExpenseEq x e = false) :
    remove_expense s user_id e = (s, [Report.expenseNotFound (pyLower user_id)]) :=
  remove_expense_no_match s user_id u e hu (by
    rw [List.any_eq_false]
    intro x hx
    simp [he x hx])

/-- Witness for C6: removing an expense that was never added to "a"'s list
reports not-found and changes nothing. -/
theorem remove_expense_absent_noop_witness :
    lookupUser sampleTrackerExp.users (pyLower "a")
      = some { name := "Alice", account_number := "123", balance := 0,
               expenses := [{ oid := 0, amount := 50, category := "Food", date := "2024-04-20" }] } ∧
    remove_expense sampleTrackerExp "a" { oid := 7, amount := 1, category := "x", date := "y" }
      = (sampleTrackerExp, [Report.expenseNotFound (pyLower "a")]) :=
  ⟨by decide, remove_expense_absent_noop sampleTrackerExp "a"
    { name := "Alice", account_number := "123", balance := 0,
      expenses := [{ oid := 0, amount := 50, category := "Food", date := "2024-04-20" }] }
    { oid := 7, amount := 1, category := "x", date := "y" } (by decide) (by decide)⟩

/-- C10: expense removal compares by object identity, never by value: a
freshly constructed expense (its identity differs from every stored one)
carrying exactly the same amount, category and date as a stored expense is
reported not-found and the user's expense list is left unchanged. -/
theorem remove_expense_identity_only (s : TrackerState) (user_id : String) (u : User)
    (stored fresh : Expense)
    (hu : lookupUser s.users (pyLower user_id) = some u)
    (hstored : stored ∈ u.expenses)
    (hamount : fresh.amount = stored.amount)
    (hcategory : fresh.category = stored.category)
    (hdate : fresh.date = stored.date)
    (hfresh : ∀ x ∈ u.expenses, x.oid ≠ fresh.oid) :
    remove_expense s user_id fresh = (s, [Report.expenseNotFound (pyLower user_id)]) :=
  remove_expense_no_match s user_id u fresh hu (by
    rw [List.any_eq_false]
    intro x hx
    simp [pyExpenseEq, hfresh x hx])

/-- Witness for C10: the stored expense has oid 0; a fresh expense built by
the allocator would get oid 1 and, with identical fields, is not found. -/
theorem remove_expense_identity_only_witness :
    lookupUser sampleTrackerExp.users (pyLower "a")
      = some { name := "Alice", account_number := "123", balance := 0,
               expenses := [{ oid := 0, amount := 50, category := "Food", date := "2024-04-20" }] } ∧
    remove_expense sampleTrackerExp "a" { oid := 1, amount := 50, category := "Food", date := "2024-04-20" }
      = (sampleTrackerExp, [Report.expenseNotFound (pyLower "a")]) :=
  ⟨by decide, remove_expense_identity_only sampleTrackerExp "a"
    { name := "Alice", account_number := "123", balance := 0,
      expenses := [{ oid := 0, amount := 50, category := "Food", date := "2024-04-20" }] }
    { oid := 0, amount := 50, category := "Food", date := "2024-04-20" }
    { oid := 1, amount := 50, category := "Food", date := "2024-04-20" }
    (by decide) (by decide) (by decide) (by decide) (by decide) (by decide)⟩

/-- C7: for a registered user, `save_expense_history` writes exactly one
newline-terminated line per stored expense, of the form
`<date>: $<amount> - <category>`, in insertion order, and the written content
fully replaces whatever the destination held before (the prior content of
`fs` at `filename` never survives). -/
theorem save_expense_history_writes_lines (s : TrackerState) (user_id : String)
    (u : User) (filename : String) (fs : FS)
    (hu : lookupUser s.users (pyLower user_id) = some u) :
    save_expense_history s user_id filename fs
      = (setFile fs filename (String.join (u.expenses.map
          (fun e => e.date ++ ": $" ++ toString e.amount ++ " - " ++ e.category ++ "\n"))), []) ∧
    getFile (save_expense_history s user_id filename fs).1 filename
      = some (String.join (u.expenses.map
          (fun e => e.date ++ ": $" ++ toString e.amount ++ " - " ++ e.category ++ "\n"))) := by
  have heq : save_expense_history s user_id filename fs
      = (setFile fs filename (String.join (u.expenses.map
          (fun e => e.date ++ ": $" ++ toString e.amount ++ " - " ++ e.category ++ "\n"))), []) := by
    simp only [save_expense_history]
    rw [hu]
    rfl
  exact ⟨heq, by rw [heq]; exact getFile_setFile fs filename _⟩

/-- Witness for C7: saving "a"'s single expense over a file that already
holds other content replaces it with the one formatted line. -/
theorem save_expense_history_writes_lines_witness :
    lookupUser sampleTrackerExp.users (pyLower "a")
      = some { name := "Alice", account_number := "123", balance := 0,
               expenses := [{ oid := 0, amount := 50, category := "Food", date := "2024-04-20" }] } ∧
    getFile (save_expense_history sampleTrackerExp "a" "f.txt" [("f.txt", "stale")]).1 "f.txt"
      = some "2024-04-20: $50 - Food\n" := by
  have h := save_expense_history_writes_lines sampleTrackerExp "a"
    { name := "Alice", account_number := "123", balance := 0,
      expenses := [{ oid := 0, amount := 50, category := "Food", date := "2024-04-20" }] }
    "f.txt" [("f.txt", "stale")] (by decide)
  exact ⟨by decide, by rw [h.2]; decide⟩

/-- C8: `set_deposit_limit` with period `daily`, `weekly` or `monthly` sets
exactly that period's limit and leaves the other two limits, the users and
the deposit audit list unchanged; any other period leaves the entire state
unchanged, with no report of any kind (the function returns only the state). -/
theorem set_deposit_limit_cases (s : TrackerState) (period : String) (limit : Int) :
    (set_deposit_limit s period limit).users = s.users ∧
    (set_deposit_limit s period limit).group_deposits = s.group_deposits ∧
    (period = "daily" → set_deposit_limit s period limit
      = { s with deposit_limits := { s.deposit_limits with daily := some limit } }) ∧
    (period = "weekly" → set_deposit_limit s period limit
      = { s with deposit_limits := { s.deposit_limits with weekly := some limit } }) ∧
    (period = "monthly" → set_deposit_limit s period limit
      = { s with deposit_limits := { s.deposit_limits with monthly := some limit } }) ∧
    (period ≠ "daily" → period ≠ "weekly" → period ≠ "monthly" →
      set_deposit_limit s period limit = s) := by
  by_cases hd : period = "daily"
  · subst hd
    exact ⟨rfl, rfl, fun _ => rfl, fun h => absurd h (by decide),
      fun h => absurd h (by decide), fun h _ _ => absurd rfl h⟩
  · by_cases hw : period = "weekly"
    · subst hw
      have hred : set_deposit_limit s "weekly" limit
          = { s with deposit_limits := { s.deposit_limits with weekly := some limit } } := by
        unfold set_deposit_limit
        rw [if_neg (by decide), if_pos rfl]
      exact ⟨by rw [hred], by rw [hred], fun h => absurd h (by decide), fun _ => hred,
        fun h => absurd h (by decide), fun _ h _ => absurd rfl h⟩
    · by_cases hm : period = "monthly"
      · subst hm
        have hred : set_deposit_limit s "monthly" limit
            = { s with deposit_limits := { s.deposit_limits with monthly := some limit } } := by
          unfold set_deposit_limit
          rw [if_neg (by decide), if_neg (by decide), if_pos rfl]
        exact ⟨by rw [hred], by rw [hred], fun h => absurd h (by decide),
          fun h => absurd h (by decide), fun _ => hred, fun _ _ h => absurd rfl h⟩
      · have hred : set_deposit_limit s period limit = s := by
          unfold set_deposit_limit
          rw [if_neg hd, if_neg hw, if_neg hm]
        exact ⟨by rw [hred], by rw [hred], fun h => absurd h hd, fun h => absurd h hw,
          fun h => absurd h hm, fun _ _ _ => hred⟩

/-- Witness for C8: setting the daily limit on the fresh tracker stores it
and leaves the weekly and monthly limits unset. -/
theorem set_deposit_limit_cases_witness :
    set_deposit_limit initState "daily" 100
      = { initState with deposit_limits := { initState.deposit_limits with daily := some 100 } } :=
  (set_deposit_limit_cases initState "daily" 100).2.2.1 rfl

/-- C9: `FinanceTracker` is a process-wide singleton: once an instance
exists, `__new__` hands back exactly that instance with all its accumulated
state and never resets it to a fresh one, and consecutive constructions yield
the same instance and leave the class attribute unchanged. -/
theorem financeTracker_singleton (inst : Option TrackerState) (s : TrackerState) :
    financeTrackerNew (some s) = (s, some s) ∧
    (financeTrackerNew (financeTrackerNew inst).2).1 = (financeTrackerNew inst).1 ∧
    (financeTrackerNew (financeTrackerNew inst).2).2 = (financeTrackerNew inst).2 := by
  refine ⟨rfl, ?_, ?_⟩ <;> cases inst <;> rfl

/-- Witness for C9: constructing again after state has accumulated returns
that same state. -/
theorem financeTracker_singleton_witness :
    financeTrackerNew (some sampleTracker) = (sampleTracker, some sampleTracker) :=
  (financeTracker_singleton none sampleTracker).1

theorem lookupUser_eq_none_iff (us : List (String × User)) (uid : String) :
    lookupUser us uid = none ↔ uid ∉ us.map Prod.fst := by
  induction us with
  | nil => simp [lookupUser]
  | cons p rest ih =>
    by_cases hp : p.1 = uid
    · simp [lookupUser, hp]
    · have huid : ¬ uid = p.1 := fun h => hp h.symm
      simp only [lookupUser, if_neg hp, List.map_cons, List.mem_cons, not_or, ih]
      simp [huid]

theorem addUsersSeq_keys (entries : List (String × String × String)) (s : TrackerState)
    (hnd : (entries.map (fun e => pyLower e.1)).Nodup)
    (hdisj : ∀ e ∈ entries, pyLower e.1 ∉ userIds s) :
    userIds (addUsersSeq s entries) = userIds s ++ entries.map (fun e => pyLower e.1) := by
  induction entries generalizing s with
  | nil => simp [addUsersSeq]
  | cons e rest ih =>
    obtain ⟨hhead, htail⟩ := List.nodup_cons.mp hnd
    have hnone : lookupUser s.users (pyLower e.1) = none :=
      (lookupUser_eq_none_iff s.users (pyLower e.1)).mpr (hdisj e (by simp))
    have hstep : (add_user s e.1 e.2.1 e.2.2).1
        = { s with users := s.users ++ [(pyLower e.1,
            { name := e.2.1, account_number := e.2.2, balance := 0, expenses := [] })] } := by
      simp only [add_user]
      rw [hnone]
    have hseq : addUsersSeq s (e :: rest) = addUsersSeq (add_user s e.1 e.2.1 e.2.2).1 rest := rfl
    rw [hseq, hstep, ih]
    · simp [userIds]
    · exact htail
    · intro e' he'
      have hmem : pyLower e'.1 ∈ List.map (fun x : String × String × String => pyLower x.1) rest :=
        List.mem_map_of_mem _ he'
      simp only [userIds, List.map_append, List.mem_append]
      rintro (hin | hin)
      · exact hdisj e' (by simp [he']) hin
      · simp at hin
        apply hhead
        show pyLower e.1 ∈ List.map (fun x : String × String × String => pyLower x.1) rest
        rw [← hin]
        exact hmem

/-- C3: a sequence of `add_user` calls whose lower-cased ids are pairwise
distinct leaves the registry holding exactly those lower-cased ids (in call
order), independent of the casing the ids were supplied in. -/
theorem addUsersSeq_registry (entries : List (String × String × String))
    (hnd : (entries.map (fun e => pyLower e.1)).Nodup) :
    userIds (addUsersSeq initState entries) = entries.map (fun e => pyLower e.1) := by
  have h := addUsersSeq_keys entries initState hnd (by
    intro e he
    simp [userIds, initState])
  simpa [userIds, initState] using h

/-- Witness for C3: adding "A" and "b" (mixed casing, distinct normalized
ids) leaves the registry with exactly the keys "a" and "b". -/
theorem addUsersSeq_registry_witness :
    ((([("A", "Alice", "123"), ("b", "Bob", "456")] : List (String × String × String)).map
      (fun e => pyLower e.1)).Nodup) ∧
    userIds (addUsersSeq initState [("A", "Alice", "123"), ("b", "Bob", "456")])
      = [("A", "Alice", "123"), ("b", "Bob", "456")].map (fun e => pyLower e.1) :=
  ⟨by decide, addUsersSeq_registry [("A", "Alice", "123"), ("b", "Bob", "456")] (by decide)⟩

/-- C1: `add_group_deposit` is atomic: either it leaves the entire tracker
state exactly as it was (the rejection branch), or it adds exactly `amt` to
the balance of every named user, leaves every other user's record untouched,
and appends exactly one record `(amt, normalized ids)` to the group-deposit
audit list — never some proper subset of the updates. -/
theorem add_group_deposit_atomic (s : TrackerState) (amt : Int) (ids : List String)
    (uid : String) :
    ((add_group_deposit s amt ids).1 = s) ∨
    ((uid ∈ ids.map pyLower →
        balanceOf (add_group_deposit s amt ids).1 uid
          = (balanceOf s uid).map (fun b => b + amt)) ∧
     (uid ∉ ids.map pyLower →
        lookupUser (add_group_deposit s amt ids).1.users uid = lookupUser s.users uid) ∧
     (add_group_deposit s amt ids).1.group_deposits
        = s.group_deposits ++ [(amt, ids.map pyLower)] ∧
     (add_group_deposit s amt ids).1.deposit_limits = s.deposit_limits) := by
  by_cases h : (((ids.map pyLower).filter
      (fun v => (lookupUser s.users v).isSome)).dedup).length = (ids.map pyLower).length
  · right
    obtain ⟨hnd, -⟩ := groupDeposit_success_cond s.users (ids.map pyLower) h
    have heq : (add_group_deposit s amt ids).1
        = { s with users := depositAll s.users (ids.map pyLower) amt,
                   group_deposits := s.group_deposits ++ [(amt, ids.map pyLower)] } := by
      simp only [add_group_deposit]
      rw [if_pos h]
    refine ⟨?_, ?_, by rw [heq], by rw [heq]⟩
    · intro hmem
      have hu : balanceOf (add_group_deposit s amt ids).1 uid
          = (lookupUser (depositAll s.users (ids.map pyLower) amt) uid).map User.balance := by
        rw [balanceOf, heq]
      rw [hu, lookupUser_depositAll _ _ _ hnd, if_pos hmem]
      rw [balanceOf]
      cases lookupUser s.users uid <;> rfl
    · intro hmem
      have hu : lookupUser (add_group_deposit s amt ids).1.users uid
          = lookupUser (depositAll s.users (ids.map pyLower) amt) uid := by
        rw [heq]
      rw [hu, lookupUser_depositAll _ _ _ hnd, if_neg hmem]
  · left
    simp only [add_group_deposit]
    rw [if_neg h]

/-- Witness for C1 on a success run: depositing 100 to the registered users
"a" and "b" gives "a" the balance 100. -/
theorem add_group_deposit_atomic_witness :
    balanceOf (add_group_deposit sampleTracker2 100 ["a", "b"]).1 "a" = some 100 := by
  rcases add_group_deposit_atomic sampleTracker2 100 ["a", "b"] "a" with h | h
  · exact absurd h (by decide)
  · rw [h.1 (by decide)]
    decide

/-- C2 (refuting evaluation): with "a" registered, the group deposit
`add_group_deposit(100, ["a", "a"])` references only registered ids, yet it
is rejected: the `valid_users` dict comprehension collapses the duplicate id,
so the length check fails, no balance changes, and the reported missing set
is empty even though the deposit failed. -/
theorem add_group_deposit_duplicate_ids_rejected :
    (∀ uid ∈ (["a", "a"].map pyLower), (lookupUser sampleTracker.users uid).isSome) ∧
    add_group_deposit sampleTracker 100 ["a", "a"]
      = (sampleTracker, [Report.depositFailed []]) := by
  exact ⟨by decide, by decide⟩
